import Mathlib

/-!
Verification of the response-shaping and replication-safety logic of the
syncthing-mcp server, as a shallow embedding of the Python source.

Conventions of the embedding:
* Python dicts read with `.get(key)` / `.get(key, default)` become structures
  with `Option` fields plus explicit `Option.getD` at the use site, mirroring
  each `get` in the source.
* Python floats are modelled as rationals.  `round(x, 2)` is modelled by
  `round2`, rounding half-to-even as Python's `round` does; the float
  comparison `last_nl > limit * 0.8` is modelled by the exact rational
  comparison `4 * limit < 5 * i`, which agrees with the float comparison at
  the fixed limit 25000 used by the program (the float threshold lies
  strictly between the integers 20000 and 20001).
* Fallible remote calls (`try`/`except` around `client._get`) become
  functions returning `Option`: `none` models the exception branch.
* JSON values produced by the formatters are modelled by `JVal`, and each
  formatter returns its dict as an association list `List (String × JVal)`
  in the construction order of the source.
-/

namespace SyncthingMCP

/-- JSON-like values produced by the formatters. -/
inductive JVal where
  | str (v : String)
  | int (v : ℤ)
  | rat (v : ℚ)
  | bool (v : Bool)
  | null
  | arr (vs : List JVal)
  | obj (fields : List (String × JVal))

/-- `formatters.CHARACTER_LIMIT`. -/
def CHARACTER_LIMIT : ℕ := 25000

/-- `formatters.SHORT_ID_LEN`. -/
def SHORT_ID_LEN : ℕ := 7

/-- `formatters.short_id`: `device_id[:SHORT_ID_LEN] if device_id else ""`. -/
def short_id (deviceId : String) : String :=
  if deviceId = "" then "" else deviceId.take SHORT_ID_LEN

/-- Round a rational to the nearest integer, ties to even (Python `round`). -/
def roundHalfEven (q : ℚ) : ℤ :=
  if Int.fract q < 1/2 then ⌊q⌋
  else if 1/2 < Int.fract q then ⌊q⌋ + 1
  else if 2 ∣ ⌊q⌋ then ⌊q⌋ else ⌊q⌋ + 1

/-- Python `round(x, 2)` on the rational model. -/
def round2 (q : ℚ) : ℚ := (roundHalfEven (q * 100) : ℚ) / 100

/-- Render a nonnegative rational with one decimal digit (`f"{x:.1f}"`),
rounding half-to-even as Python float formatting does. -/
def fmt1nn (q : ℚ) : String :=
  let m := roundHalfEven (q * 10)
  toString (m / 10) ++ "." ++ toString (m % 10)

/-- Render a rational with one decimal digit (`f"{x:.1f}"`). -/
def fmt1 (q : ℚ) : String :=
  if q < 0 then "-" ++ fmt1nn (-q) else fmt1nn q

/-- Loop body of `formatters.format_bytes`: try each unit in order, dividing
by 1024, and fall through to `"PB"` when every listed unit is exhausted. -/
def formatBytesGo : ℚ → List String → String
  | n, [] => fmt1 n ++ " PB"
  | n, u :: rest => if |n| < 1024 then fmt1 n ++ " " ++ u else formatBytesGo (n / 1024) rest

/-- `formatters.format_bytes`: human-readable byte size. -/
def format_bytes (n : ℚ) : String :=
  formatBytesGo n ["B", "KB", "MB", "GB", "TB"]

/-- The six unit names the display can produce, smallest first. -/
def byteUnitsAll : List String := ["B", "KB", "MB", "GB", "TB", "PB"]

/-- Group a reversed digit list into blocks of three (for `f"{n:,}"`). -/
def groupThrees : List Char → List (List Char)
  | a :: b :: c :: rest => [a, b, c] :: groupThrees rest
  | [] => []
  | l => [l]

/-- Python `f"{n:,}"`: decimal digits grouped in threes by commas. -/
def commaSep (n : ℕ) : String :=
  let ds := (toString n).toList
  String.mk (List.intercalate [','] (((groupThrees ds.reverse).map List.reverse).reverse))

/-- `cut.rfind("\n")` on a character list: index of the last newline
(`none` models Python's `-1`). -/
def rfindNl : List Char → Option ℕ
  | [] => none
  | c :: rest =>
    match rfindNl rest with
    | some i => some (i + 1)
    | none => if c = '\n' then some 0 else none

/-- The guidance appended by `formatters.truncate` past the limit. -/
def truncSuffix (origLen limit : ℕ) : String :=
  "\n... truncated (" ++ commaSep origLen ++ " chars, limit " ++ commaSep limit
    ++ "). Use pagination or filters to narrow results."

/-- The `cut` computed by `formatters.truncate` past the limit: the first
`limit` characters, shortened to the last newline when that newline lies
past 80% of the limit (`last_nl > limit * 0.8` becomes the exact rational
comparison `4 * limit < 5 * i`). -/
def truncCut (l : List Char) (limit : ℕ) : List Char :=
  match rfindNl (l.take limit) with
  | some i => if 4 * limit < 5 * i then (l.take limit).take i else l.take limit
  | none => l.take limit

/-- `formatters.truncate`: cut text exceeding `limit`, preferring the last
newline when it lies past 80% of the limit, and append the guidance. -/
def truncate (text : String) (limit : ℕ) : String :=
  if text.length ≤ limit then text
  else String.mk (truncCut text.toList limit) ++ truncSuffix text.length limit

/-- Render an optional value, `none` becoming JSON `null` (a bare `d.get(k)`). -/
def jnull {α : Type} (f : α → JVal) (o : Option α) : JVal :=
  (o.map f).getD .null

/-- A `{"deviceID": ...}` member of a folder config's device list. -/
structure DeviceRef where
  deviceID : Option String
  deriving DecidableEq, Repr

/-- A folder config dict as read by the formatters (`cfg["id"]` is mandatory,
every other key optional).  The `"type"` key is the `ftype` field. -/
structure FolderCfgRaw where
  id : String
  label : Option String
  path : Option String
  ftype : Option String
  paused : Option Bool
  devices : Option (List DeviceRef)
  deriving DecidableEq, Repr

/-- `formatters.format_folder`. -/
def format_folder (cfg : FolderCfgRaw) (concise : Bool) : List (String × JVal) :=
  if concise then
    [("id", .str cfg.id),
     ("label", .str (cfg.label.getD cfg.id)),
     ("type", .str (cfg.ftype.getD "sendreceive")),
     ("paused", .bool (cfg.paused.getD false)),
     ("devices", .int ((cfg.devices.getD []).length))]
  else
    [("id", .str cfg.id),
     ("label", .str (cfg.label.getD cfg.id)),
     ("path", .str (cfg.path.getD "")),
     ("type", .str (cfg.ftype.getD "sendreceive")),
     ("paused", .bool (cfg.paused.getD false)),
     ("devices", .arr ((cfg.devices.getD []).map (fun d => .str (d.deviceID.getD ""))))]

/-- A device config dict (`dev["deviceID"]` mandatory). -/
structure DeviceCfgRaw where
  deviceID : String
  name : Option String
  deriving DecidableEq, Repr

/-- A connection entry dict; the `"type"` key is the `ctype` field. -/
structure ConnRaw where
  connected : Option Bool
  paused : Option Bool
  address : Option String
  ctype : Option String
  crypto : Option String
  inBytesTotal : Option ℤ
  outBytesTotal : Option ℤ
  deriving DecidableEq, Repr

/-- The empty dict substituted by `conn = conn or {}`. -/
def ConnRaw.empty : ConnRaw := ⟨none, none, none, none, none, none, none⟩

/-- A device-stats dict. -/
structure StatRaw where
  lastSeen : Option String
  deriving DecidableEq, Repr

/-- The empty dict substituted by `stat = stat or {}`. -/
def StatRaw.empty : StatRaw := ⟨none⟩

/-- `formatters.format_device`. -/
def format_device (dev : DeviceCfgRaw) (conn : Option ConnRaw) (stat : Option StatRaw)
    (concise : Bool) : List (String × JVal) :=
  let did := dev.deviceID
  let c := conn.getD ConnRaw.empty
  let s := stat.getD StatRaw.empty
  if concise then
    [("id", .str (short_id did)),
     ("name", .str (dev.name.getD (short_id did))),
     ("connected", .bool (c.connected.getD false)),
     ("address", .str (c.address.getD ""))]
  else
    [("deviceID", .str did),
     ("name", .str (dev.name.getD (short_id did))),
     ("connected", .bool (c.connected.getD false)),
     ("paused", .bool (c.paused.getD false)),
     ("address", .str (c.address.getD "")),
     ("type", .str (c.ctype.getD "")),
     ("crypto", .str (c.crypto.getD "")),
     ("inBytesTotal", .int (c.inBytesTotal.getD 0)),
     ("outBytesTotal", .int (c.outBytesTotal.getD 0)),
     ("lastSeen", .str (s.lastSeen.getD ""))]

/-- A `/rest/db/status` response dict. -/
structure StatusRaw where
  state : Option String
  stateChanged : Option String
  globalFiles : Option ℤ
  globalBytes : Option ℤ
  localFiles : Option ℤ
  localBytes : Option ℤ
  needFiles : Option ℤ
  needBytes : Option ℤ
  inSyncFiles : Option ℤ
  inSyncBytes : Option ℤ
  globalDeleted : Option ℤ
  localDeleted : Option ℤ
  ignorePatterns : Option Bool
  deriving DecidableEq, Repr

/-- `formatters.format_folder_status`. -/
def format_folder_status (status : StatusRaw) (concise : Bool) : List (String × JVal) :=
  if concise then
    [("state", jnull .str status.state),
     ("globalFiles", jnull .int status.globalFiles),
     ("globalSize", .str (format_bytes ((status.globalBytes.getD 0 : ℤ) : ℚ))),
     ("localFiles", jnull .int status.localFiles),
     ("localSize", .str (format_bytes ((status.localBytes.getD 0 : ℤ) : ℚ))),
     ("needFiles", jnull .int status.needFiles),
     ("needSize", .str (format_bytes ((status.needBytes.getD 0 : ℤ) : ℚ)))]
  else
    [("state", jnull .str status.state),
     ("stateChanged", jnull .str status.stateChanged),
     ("globalFiles", jnull .int status.globalFiles),
     ("globalBytes", jnull .int status.globalBytes),
     ("globalSize", .str (format_bytes ((status.globalBytes.getD 0 : ℤ) : ℚ))),
     ("localFiles", jnull .int status.localFiles),
     ("localBytes", jnull .int status.localBytes),
     ("localSize", .str (format_bytes ((status.localBytes.getD 0 : ℤ) : ℚ))),
     ("needFiles", jnull .int status.needFiles),
     ("needBytes", jnull .int status.needBytes),
     ("needSize", .str (format_bytes ((status.needBytes.getD 0 : ℤ) : ℚ))),
     ("inSyncFiles", jnull .int status.inSyncFiles),
     ("inSyncBytes", jnull .int status.inSyncBytes),
     ("globalDeleted", jnull .int status.globalDeleted),
     ("localDeleted", jnull .int status.localDeleted),
     ("ignorePatterns", jnull .bool status.ignorePatterns)]

/-- A `/rest/db/completion` response dict. -/
structure CompRaw where
  deviceID : Option String
  completion : Option ℚ
  globalBytes : Option ℤ
  needBytes : Option ℤ
  needItems : Option ℤ
  needDeletes : Option ℤ
  remoteState : Option String
  deriving DecidableEq, Repr

/-- `formatters.format_completion`. -/
def format_completion (comp : CompRaw) (deviceName : String) (connected : Bool)
    (concise : Bool) : List (String × JVal) :=
  if concise then
    [("device", .str (if deviceName = "" then short_id (comp.deviceID.getD "") else deviceName)),
     ("connected", .bool connected),
     ("completion", .rat (round2 (comp.completion.getD 0))),
     ("needSize", .str (format_bytes ((comp.needBytes.getD 0 : ℤ) : ℚ))),
     ("remoteState", .str (comp.remoteState.getD "unknown"))]
  else
    [("device", .str deviceName),
     ("connected", .bool connected),
     ("completion", .rat (round2 (comp.completion.getD 0))),
     ("globalBytes", .int (comp.globalBytes.getD 0)),
     ("globalSize", .str (format_bytes ((comp.globalBytes.getD 0 : ℤ) : ℚ))),
     ("needBytes", .int (comp.needBytes.getD 0)),
     ("needSize", .str (format_bytes ((comp.needBytes.getD 0 : ℤ) : ℚ))),
     ("needItems", .int (comp.needItems.getD 0)),
     ("needDeletes", .int (comp.needDeletes.getD 0)),
     ("remoteState", .str (comp.remoteState.getD "unknown"))]

/-- `formatters.format_connection`. -/
def format_connection (did : String) (conn : ConnRaw) (name : String)
    (concise : Bool) : List (String × JVal) :=
  if concise then
    [("device", .str (if name = "" then short_id did else name)),
     ("connected", .bool (conn.connected.getD false)),
     ("address", .str (conn.address.getD "")),
     ("type", .str (conn.ctype.getD ""))]
  else
    [("deviceID", .str did),
     ("deviceName", .str (if name = "" then short_id did else name)),
     ("connected", .bool (conn.connected.getD false)),
     ("paused", .bool (conn.paused.getD false)),
     ("address", .str (conn.address.getD "")),
     ("type", .str (conn.ctype.getD "")),
     ("crypto", .str (conn.crypto.getD "")),
     ("inBytesTotal", .int (conn.inBytesTotal.getD 0)),
     ("outBytesTotal", .int (conn.outBytesTotal.getD 0))]

/-- The field names of a formatter output, in construction order. -/
def keysOf (l : List (String × JVal)) : List String := l.map Prod.fst

/-- A per-device completion entry built by `syncthing_replication_report`
(`device_completions` list).  `completion = none` is the JSON `null` of the
failure branch; `needBytes = none` models that key's absence there. -/
structure RREntry where
  deviceID : String
  deviceName : String
  connected : Bool
  completion : Option ℚ
  remoteState : String
  needBytes : Option ℤ
  deriving DecidableEq, Repr

/-- The `fully_replicated` list comprehension shared by
`formatters.format_replication_entry` and `syncthing_replication_report`. -/
def fullyReplicated (deviceCompletions : List RREntry) : List RREntry :=
  deviceCompletions.filter (fun d => d.completion == some 100 && d.remoteState == "valid")

/-- The `safe` expression of `formatters.format_replication_entry`:
`len(fully_replicated) >= 1 and state == "idle" and not paused`. -/
def replicationSafe (deviceCompletions : List RREntry) (state : String) (paused : Bool) : Bool :=
  decide (1 ≤ (fullyReplicated deviceCompletions).length) && (state == "idle") && !paused

/-- JSON object for one `device_completions` entry (the failure entry has no
`needBytes` key). -/
def rrEntryJ (e : RREntry) : JVal :=
  .obj ([("deviceID", .str e.deviceID),
         ("deviceName", .str e.deviceName),
         ("connected", .bool e.connected),
         ("completion", jnull .rat e.completion),
         ("remoteState", .str e.remoteState)]
        ++ (e.needBytes.map (fun b => [("needBytes", JVal.int b)])).getD [])

/-- `formatters.format_replication_entry`. -/
def format_replication_entry (folderCfg : FolderCfgRaw) (status : StatusRaw)
    (deviceCompletions : List RREntry) (concise : Bool) : List (String × JVal) :=
  let fid := folderCfg.id
  let label := folderCfg.label.getD fid
  let localBytes := status.localBytes.getD 0
  let state := status.state.getD "unknown"
  let paused := folderCfg.paused.getD false
  let safe := replicationSafe deviceCompletions state paused
  if concise then
    [("id", .str fid),
     ("label", .str label),
     ("safe", .bool safe),
     ("local", .str (format_bytes (localBytes : ℚ))),
     ("state", .str state),
     ("replicated", .int ((fullyReplicated deviceCompletions).length : ℤ)),
     ("totalDevices", .int (deviceCompletions.length : ℤ))]
  else
    [("id", .str fid),
     ("label", .str label),
     ("path", .str (folderCfg.path.getD "")),
     ("type", .str (folderCfg.ftype.getD "sendreceive")),
     ("paused", .bool paused),
     ("state", .str state),
     ("localBytes", .int localBytes),
     ("localSize", .str (format_bytes (localBytes : ℚ))),
     ("globalSize", .str (format_bytes ((status.globalBytes.getD 0 : ℤ) : ℚ))),
     ("safeToRemove", .bool safe),
     ("fullyReplicatedOn", .int ((fullyReplicated deviceCompletions).length : ℤ)),
     ("totalRemoteDevices", .int (deviceCompletions.length : ℤ)),
     ("devices", .arr (deviceCompletions.map rrEntryJ))]

/-- A raw `/rest/db/completion` response as consumed in `tools/folders.py`. -/
structure RawCompletion where
  completion : Option ℚ
  globalBytes : Option ℤ
  needBytes : Option ℤ
  needItems : Option ℤ
  needDeletes : Option ℤ
  remoteState : Option String
  deriving DecidableEq, Repr

/-- A `connections["connections"][did]` entry as consumed in `tools/folders.py`. -/
structure ConnInfo where
  connected : Option Bool
  deriving DecidableEq, Repr

/-- A `{"deviceID": ...}` member of a folder config's device list. -/
structure FolderDevice where
  deviceID : Option String
  deriving DecidableEq, Repr

/-- A completion entry built by `syncthing_folder_completion`.  Fields that
are absent from the failure-branch dict are `Option`s; `error` is the key
present only there. -/
structure FCEntry where
  deviceID : String
  deviceName : String
  connected : Bool
  completion : Option ℚ
  globalBytes : Option ℤ
  globalSize : Option String
  needBytes : Option ℤ
  needSize : Option String
  needItems : Option ℤ
  needDeletes : Option ℤ
  remoteState : Option String
  error : Option String
  deriving DecidableEq, Repr

/-- The loop body of `syncthing_folder_completion` for one device: the `try`
block on a successful query (`q fid did = some comp`), the `except` block on
a failed one (`none`). -/
def fcEntry (q : String → String → Option RawCompletion) (connOf : String → Option ConnInfo)
    (nameOf : String → Option String) (fid did : String) : FCEntry :=
  match q fid did with
  | some comp =>
    { deviceID := did
      deviceName := (nameOf did).getD (did.take 8)
      connected := ((connOf did).getD ⟨none⟩).connected.getD false
      completion := some (round2 (comp.completion.getD 0))
      globalBytes := some (comp.globalBytes.getD 0)
      globalSize := some (format_bytes ((comp.globalBytes.getD 0 : ℤ) : ℚ))
      needBytes := some (comp.needBytes.getD 0)
      needSize := some (format_bytes ((comp.needBytes.getD 0 : ℤ) : ℚ))
      needItems := some (comp.needItems.getD 0)
      needDeletes := some (comp.needDeletes.getD 0)
      remoteState := some (comp.remoteState.getD "unknown")
      error := none }
  | none =>
    { deviceID := did
      deviceName := (nameOf did).getD (did.take 8)
      connected := false
      completion := none
      globalBytes := none
      globalSize := none
      needBytes := none
      needSize := none
      needItems := none
      needDeletes := none
      remoteState := none
      error := some "Could not query completion for this device." }

/-- The device loop of `syncthing_folder_completion`: skip the local device
(`did == my_id: continue`), otherwise append one entry per device. -/
def completionEntries (myID : String) (q : String → String → Option RawCompletion)
    (connOf : String → Option ConnInfo) (nameOf : String → Option String)
    (fid : String) : List FolderDevice → List FCEntry
  | [] => []
  | dev :: rest =>
    let did := dev.deviceID.getD ""
    if did = myID then completionEntries myID q connOf nameOf fid rest
    else fcEntry q connOf nameOf fid did :: completionEntries myID q connOf nameOf fid rest

/-- `fully_replicated_count` in `syncthing_folder_completion`:
`sum(1 for c in completions if c.get("completion") == 100 and
c.get("remoteState") == "valid")`. -/
def fcFullyReplCount (completions : List FCEntry) : ℕ :=
  completions.countP (fun c => c.completion == some 100 && c.remoteState == some "valid")

/-- `remote_devices` in `syncthing_replication_report`:
`[d for d in folder_cfg.get("devices", []) if d.get("deviceID") != my_id]`. -/
def remoteDevices (cfg : FolderCfgRaw) (myID : String) : List FolderDevice :=
  ((cfg.devices.getD []).map (fun d => FolderDevice.mk d.deviceID)).filter
    (fun d => d.deviceID != some myID)

/-- The device loop body of `syncthing_replication_report` for one device
(`connected` is read from the connections table before the `try`). -/
def rrEntry (q : String → String → Option RawCompletion) (connOf : String → Option ConnInfo)
    (nameOf : String → Option String) (fid did : String) : RREntry :=
  let connected := ((connOf did).getD ⟨none⟩).connected.getD false
  match q fid did with
  | some comp =>
    { deviceID := did
      deviceName := (nameOf did).getD (did.take 8)
      connected := connected
      completion := some (round2 (comp.completion.getD 0))
      remoteState := comp.remoteState.getD "unknown"
      needBytes := some (comp.needBytes.getD 0) }
  | none =>
    { deviceID := did
      deviceName := (nameOf did).getD (did.take 8)
      connected := connected
      completion := none
      remoteState := "unknown"
      needBytes := none }

/-- The `device_completions` list of `syncthing_replication_report`. -/
def reportDeviceCompletions (myID : String) (q : String → String → Option RawCompletion)
    (connOf : String → Option ConnInfo) (nameOf : String → Option String)
    (cfg : FolderCfgRaw) : List RREntry :=
  (remoteDevices cfg myID).map (fun dev => rrEntry q connOf nameOf cfg.id (dev.deviceID.getD ""))

/-- One entry of the `report` list in `syncthing_replication_report`: `ok`
is the full per-folder dict, `err` the `{"folder", "label", "error"}` dict
appended when the `/rest/db/status` query raises. -/
inductive ReportEntry where
  | ok (folder label path ftype : String) (paused : Bool) (state : String)
       (localBytes globalBytes : ℤ) (localSize globalSize : String)
       (totalRemoteDevices fullyReplicatedOn : ℕ) (fullyReplicatedDevices : List String)
       (safeToRemove : Bool) (devices : List RREntry)
  | err (folder label : String)
  deriving DecidableEq, Repr

/-- `x.get("safeToRemove", False)` in the sort key. -/
def ReportEntry.safeKey : ReportEntry → Bool
  | .ok _ _ _ _ _ _ _ _ _ _ _ _ _ safe _ => safe
  | .err _ _ => false

/-- `x.get("localBytes", 0)` in the sort key. -/
def ReportEntry.bytesKey : ReportEntry → ℤ
  | .ok _ _ _ _ _ _ lb _ _ _ _ _ _ _ _ => lb
  | .err _ _ => 0

/-- The per-folder body of `syncthing_replication_report`'s folder loop. -/
def reportFolder (myID : String) (q : String → String → Option RawCompletion)
    (connOf : String → Option ConnInfo) (nameOf : String → Option String)
    (statusOf : String → Option StatusRaw) (cfg : FolderCfgRaw) : ReportEntry :=
  let fid := cfg.id
  let label := cfg.label.getD fid
  let paused := cfg.paused.getD false
  match statusOf fid with
  | none => .err fid label
  | some fstatus =>
    let localBytes := fstatus.localBytes.getD 0
    let globalBytes := fstatus.globalBytes.getD 0
    let state := fstatus.state.getD "unknown"
    let comps := reportDeviceCompletions myID q connOf nameOf cfg
    let fully := fullyReplicated comps
    let safe := decide (1 ≤ fully.length) && (state == "idle") && !paused
    .ok fid label (cfg.path.getD "") (cfg.ftype.getD "sendreceive") paused state
      localBytes globalBytes (format_bytes (localBytes : ℚ)) (format_bytes (globalBytes : ℚ))
      (remoteDevices cfg myID).length fully.length (fully.map (·.deviceName)) safe comps

/-- The unsorted `report` list. -/
def replicationReportEntries (myID : String) (q : String → String → Option RawCompletion)
    (connOf : String → Option ConnInfo) (nameOf : String → Option String)
    (statusOf : String → Option StatusRaw) (cfgs : List FolderCfgRaw) : List ReportEntry :=
  cfgs.map (reportFolder myID q connOf nameOf statusOf)

/-- The `total_reclaimable` contribution of one report entry: `local_bytes`
when `safe`, nothing otherwise, nothing for a failed-status folder. -/
def reclaimContribution : ReportEntry → ℤ
  | .ok _ _ _ _ _ _ lb _ _ _ _ _ _ safe _ => if safe then lb else 0
  | .err _ _ => 0

/-- `total_reclaimable` accumulated over the folder loop. -/
def totalReclaimable (myID : String) (q : String → String → Option RawCompletion)
    (connOf : String → Option ConnInfo) (nameOf : String → Option String)
    (statusOf : String → Option StatusRaw) (cfgs : List FolderCfgRaw) : ℤ :=
  ((replicationReportEntries myID q connOf nameOf statusOf cfgs).map reclaimContribution).sum

/-- The sort key `(-int(x.get("safeToRemove", False)), -x.get("localBytes", 0))`. -/
def sortKey (e : ReportEntry) : ℤ × ℤ :=
  (-(if e.safeKey then 1 else 0), -e.bytesKey)

/-- Ascending comparison on the sort key (lexicographic on the pair). -/
def reportLe (a b : ReportEntry) : Bool :=
  decide ((sortKey a).1 < (sortKey b).1 ∨
    ((sortKey a).1 = (sortKey b).1 ∧ (sortKey a).2 ≤ (sortKey b).2))

/-- `report.sort(key=...)`: a stable sort by the ascending key. -/
def sortReport (l : List ReportEntry) : List ReportEntry :=
  l.mergeSort reportLe

/-- A `SyncthingClient` as held by the registry. -/
structure Client where
  name : String
  url : String
  apiKey : String
  deriving DecidableEq, Repr

/-- The registry dict, an insertion-ordered name-to-client mapping. -/
abbrev Registry : Type := List (String × Client)

/-- The comma-separated body of Python `f"{names}"`. -/
def pyListReprGo : List String → String
  | [] => ""
  | [n] => "'" ++ n ++ "'"
  | n :: rest => "'" ++ n ++ "'" ++ ", " ++ pyListReprGo rest

/-- Python `f"{names}"` on a list of strings: `['a', 'b']`. -/
def pyListRepr (names : List String) : String :=
  "[" ++ pyListReprGo names ++ "]"

/-- The message of `registry.get_instance` when no name is given and the
registry does not hold exactly one instance. -/
def ambiguousMsg (names : List String) : String :=
  "Multiple instances configured (" ++ pyListRepr names ++
    "). Specify 'instance' parameter to choose one."

/-- The message of `registry.get_instance` for an unknown instance name. -/
def notFoundMsg (instanceName : String) (names : List String) : String :=
  "Instance '" ++ instanceName ++ "' not found. Available: " ++ pyListRepr names

/-- `registry.get_instance`: resolve an instance by name, or auto-select
when there is only one; `Except.error` models the raised `ValueError`. -/
def get_instance (reg : Registry) (instanceName : Option String) : Except String Client :=
  match instanceName with
  | none =>
    match reg with
    | [p] => .ok p.2
    | _ => .error (ambiguousMsg (reg.map Prod.fst))
  | some n =>
    match reg.find? (fun p => p.1 = n) with
    | some p => .ok p.2
    | none => .error (notFoundMsg n (reg.map Prod.fst))

/-! ## Theorems -/

/-- C1: the derived `safe` flag — both in `format_replication_entry` and in
the per-folder body of `syncthing_replication_report` — is true iff the
fully-replicated device count is at least 1, the folder state is `"idle"`,
and the folder is not paused. -/
theorem safe_iff_replicated_idle_unpaused :
    (∀ (comps : List RREntry) (state : String) (paused : Bool),
      replicationSafe comps state paused = true ↔
        1 ≤ (fullyReplicated comps).length ∧ state = "idle" ∧ paused = false) ∧
    (∀ (myID : String) (q : String → String → Option RawCompletion)
        (connOf : String → Option ConnInfo) (nameOf : String → Option String)
        (statusOf : String → Option StatusRaw) (cfg : FolderCfgRaw) (st : StatusRaw),
      statusOf cfg.id = some st →
        ((reportFolder myID q connOf nameOf statusOf cfg).safeKey = true ↔
          1 ≤ (fullyReplicated (reportDeviceCompletions myID q connOf nameOf cfg)).length ∧
            st.state.getD "unknown" = "idle" ∧ cfg.paused.getD false = false)) := by
  constructor
  · intro comps state paused
    simp only [replicationSafe, Bool.and_eq_true, decide_eq_true_eq, beq_iff_eq,
      Bool.not_eq_true', and_assoc]
  · intro myID q connOf nameOf statusOf cfg st h
    simp only [reportFolder, h, ReportEntry.safeKey, Bool.and_eq_true, decide_eq_true_eq,
      beq_iff_eq, Bool.not_eq_true', and_assoc]

/-- Witness for C1 at a concrete folder: one fully replicated valid device,
idle state, not paused. -/
theorem safe_iff_replicated_idle_unpaused_witness :
    ((fun _ : String => some (StatusRaw.mk (some "idle") none none none none (some 7)
        none none none none none none none)) "f" =
      some (StatusRaw.mk (some "idle") none none none none (some 7)
        none none none none none none none)) ∧
    ((reportFolder "ME" (fun _ _ => some ⟨some 100, none, none, none, none, some "valid"⟩)
        (fun _ => some ⟨some true⟩) (fun _ => none)
        (fun _ : String => some (StatusRaw.mk (some "idle") none none none none (some 7)
          none none none none none none none))
        ⟨"f", none, none, none, none, some [⟨some "DEV"⟩]⟩).safeKey = true ↔
      1 ≤ (fullyReplicated (reportDeviceCompletions "ME"
          (fun _ _ => some ⟨some 100, none, none, none, none, some "valid"⟩)
          (fun _ => some ⟨some true⟩) (fun _ => none)
          ⟨"f", none, none, none, none, some [⟨some "DEV"⟩]⟩)).length ∧
        (StatusRaw.mk (some "idle") none none none none (some 7)
          none none none none none none none).state.getD "unknown" = "idle" ∧
        (FolderCfgRaw.mk "f" none none none none (some [⟨some "DEV"⟩])).paused.getD false
          = false) :=
  ⟨rfl, safe_iff_replicated_idle_unpaused.2 "ME"
    (fun _ _ => some ⟨some 100, none, none, none, none, some "valid"⟩)
    (fun _ => some ⟨some true⟩) (fun _ => none)
    (fun _ : String => some (StatusRaw.mk (some "idle") none none none none (some 7)
      none none none none none none none))
    ⟨"f", none, none, none, none, some [⟨some "DEV"⟩]⟩
    (StatusRaw.mk (some "idle") none none none none (some 7)
      none none none none none none none) rfl⟩

/-- The folder-completion device loop is a map over the non-local devices. -/
theorem completionEntries_eq_map (myID : String) (q : String → String → Option RawCompletion)
    (connOf : String → Option ConnInfo) (nameOf : String → Option String)
    (fid : String) (devs : List FolderDevice) :
    completionEntries myID q connOf nameOf fid devs =
      (devs.filter (fun d => !(d.deviceID.getD "" == myID))).map
        (fun d => fcEntry q connOf nameOf fid (d.deviceID.getD "")) := by
  induction devs with
  | nil => rfl
  | cons dev rest ih =>
    by_cases hd : dev.deviceID.getD "" = myID
    · simp [completionEntries, hd, List.filter_cons, ih]
    · simp [completionEntries, hd, List.filter_cons, ih]

/-- C10: the local device (`myID`) is excluded from both aggregations: the
folder-completion loop equals a map over the devices whose defaulted ID
differs from `myID`, the report's remote-device list never contains `myID`,
and both device counts count only those remote devices. -/
theorem local_device_excluded :
    (∀ (myID : String) (q : String → String → Option RawCompletion)
        (connOf : String → Option ConnInfo) (nameOf : String → Option String)
        (fid : String) (devs : List FolderDevice),
      completionEntries myID q connOf nameOf fid devs =
        (devs.filter (fun d => !(d.deviceID.getD "" == myID))).map
          (fun d => fcEntry q connOf nameOf fid (d.deviceID.getD "")) ∧
      (completionEntries myID q connOf nameOf fid devs).length =
        devs.countP (fun d => !(d.deviceID.getD "" == myID))) ∧
    (∀ (cfg : FolderCfgRaw) (myID : String),
      (remoteDevices cfg myID).countP (fun d => d.deviceID == some myID) = 0 ∧
      (remoteDevices cfg myID).length =
        (cfg.devices.getD []).countP (fun d => d.deviceID != some myID)) ∧
    (∀ (myID : String) (q : String → String → Option RawCompletion)
        (connOf : String → Option ConnInfo) (nameOf : String → Option String)
        (cfg : FolderCfgRaw),
      (reportDeviceCompletions myID q connOf nameOf cfg).length =
        (remoteDevices cfg myID).length) := by
  refine ⟨fun myID q connOf nameOf fid devs => ?_, fun cfg myID => ⟨?_, ?_⟩,
    fun myID q connOf nameOf cfg => ?_⟩
  · refine ⟨completionEntries_eq_map myID q connOf nameOf fid devs, ?_⟩
    rw [completionEntries_eq_map, List.length_map, ← List.countP_eq_length_filter]
  · rw [List.countP_eq_zero]
    intro d hd
    have := List.of_mem_filter hd
    simpa using this
  · rw [remoteDevices, ← List.countP_eq_length_filter, List.countP_map]
    rfl
  · rw [reportDeviceCompletions, List.length_map]

theorem fmt1_zero : fmt1 (0:ℚ) = "0.0" := by
  unfold fmt1 fmt1nn roundHalfEven
  norm_num [Int.fract]
  rfl

theorem fmt1_two : fmt1 (2:ℚ) = "2.0" := by
  unfold fmt1 fmt1nn roundHalfEven
  norm_num [Int.fract]
  rfl

theorem fmt1_three : fmt1 (3:ℚ) = "3.0" := by
  unfold fmt1 fmt1nn roundHalfEven
  norm_num [Int.fract]
  rfl

theorem go_stop (x : ℚ) (u : String) (rest : List String) (h : |x| < 1024) :
    formatBytesGo x (u :: rest) = fmt1 x ++ " " ++ u := by
  simp only [formatBytesGo, if_pos h]

theorem go_step (x : ℚ) (u : String) (rest : List String) (h : ¬ |x| < 1024) :
    formatBytesGo x (u :: rest) = formatBytesGo (x / 1024) rest := by
  simp only [formatBytesGo, if_neg h]

theorem cond_iff (n : ℕ) (i : ℕ) : |(n:ℚ) / 1024 ^ i| < 1024 ↔ n < 1024 ^ (i + 1) := by
  rw [abs_of_nonneg (by positivity), div_lt_iff₀ (by positivity), ← pow_succ']
  rw [show ((1024:ℚ) ^ (i+1)) = ((1024 ^ (i+1) : ℕ) : ℚ) by push_cast; ring]
  exact Nat.cast_lt

theorem format_bytes_unit (n : ℕ) : format_bytes (n : ℚ) =
    fmt1 ((n : ℚ) / 1024 ^ min 5 (Nat.log 1024 n)) ++ " " ++
      byteUnitsAll.getD (min 5 (Nat.log 1024 n)) "" := by
  have hdiv : ∀ i : ℕ, (n:ℚ) / 1024 ^ i / 1024 = (n:ℚ) / 1024 ^ (i+1) := by
    intro i; rw [div_div, ← pow_succ]
  have hnot : ∀ i : ℕ, 1024 ^ (i+1) ≤ n → ¬ |(n:ℚ) / 1024 ^ i| < 1024 := by
    intro i hi; rw [cond_iff]; omega
  rcases lt_or_ge n 1024 with h0 | h0
  · have hlog : Nat.log 1024 n = 0 := Nat.log_eq_zero_iff.mpr (Or.inl h0)
    have hc : |(n:ℚ) / 1024 ^ 0| < 1024 := (cond_iff n 0).mpr (by simpa using h0)
    rw [hlog, format_bytes, go_stop _ _ _ (by simpa using hc)]
    simp [byteUnitsAll]
  · rcases lt_or_ge n (1024^2) with h1 | h1
    · have hlog : Nat.log 1024 n = 1 :=
        Nat.log_eq_of_pow_le_of_lt_pow (by simpa using h0) h1
      rw [hlog, format_bytes, go_step _ _ _ (by simpa using hnot 0 (by simpa using h0))]
      rw [show (n:ℚ)/1024 = (n:ℚ)/1024^1 by norm_num]
      rw [go_stop _ _ _ ((cond_iff n 1).mpr h1)]
      simp [byteUnitsAll]
    · rcases lt_or_ge n (1024^3) with h2 | h2
      · have hlog : Nat.log 1024 n = 2 := Nat.log_eq_of_pow_le_of_lt_pow h1 h2
        rw [hlog, format_bytes, go_step _ _ _ (by simpa using hnot 0 (by simpa using h0))]
        rw [show (n:ℚ)/1024 = (n:ℚ)/1024^1 by norm_num]
        rw [go_step _ _ _ (hnot 1 h1), hdiv 1]
        rw [go_stop _ _ _ ((cond_iff n 2).mpr h2)]
        simp [byteUnitsAll]
      · rcases lt_or_ge n (1024^4) with h3 | h3
        · have hlog : Nat.log 1024 n = 3 := Nat.log_eq_of_pow_le_of_lt_pow h2 h3
          rw [hlog, format_bytes, go_step _ _ _ (by simpa using hnot 0 (by simpa using h0))]
          rw [show (n:ℚ)/1024 = (n:ℚ)/1024^1 by norm_num]
          rw [go_step _ _ _ (hnot 1 h1), hdiv 1]
          rw [go_step _ _ _ (hnot 2 h2), hdiv 2]
          rw [go_stop _ _ _ ((cond_iff n 3).mpr h3)]
          simp [byteUnitsAll]
        · rcases lt_or_ge n (1024^5) with h4 | h4
          · have hlog : Nat.log 1024 n = 4 := Nat.log_eq_of_pow_le_of_lt_pow h3 h4
            rw [hlog, format_bytes, go_step _ _ _ (by simpa using hnot 0 (by simpa using h0))]
            rw [show (n:ℚ)/1024 = (n:ℚ)/1024^1 by norm_num]
            rw [go_step _ _ _ (hnot 1 h1), hdiv 1]
            rw [go_step _ _ _ (hnot 2 h2), hdiv 2]
            rw [go_step _ _ _ (hnot 3 h3), hdiv 3]
            rw [go_stop _ _ _ ((cond_iff n 4).mpr h4)]
            simp [byteUnitsAll]
          · have hn0 : n ≠ 0 := by
              have : (0:ℕ) < 1024^5 := by norm_num
              omega
            have hlog : 5 ≤ Nat.log 1024 n :=
              (Nat.pow_le_iff_le_log (by norm_num) hn0).mp h4
            have hmin : min 5 (Nat.log 1024 n) = 5 := min_eq_left hlog
            rw [hmin, format_bytes, go_step _ _ _ (by simpa using hnot 0 (by simpa using h0))]
            rw [show (n:ℚ)/1024 = (n:ℚ)/1024^1 by norm_num]
            rw [go_step _ _ _ (hnot 1 h1), hdiv 1]
            rw [go_step _ _ _ (hnot 2 h2), hdiv 2]
            rw [go_step _ _ _ (hnot 3 h3), hdiv 3]
            rw [go_step _ _ _ (hnot 4 h4), hdiv 4]
            simp only [formatBytesGo, byteUnitsAll, List.getD]
            rw [String.append_assoc]
            rfl

/-- C7: `format_bytes` picks the unique unit among B, KB, MB, GB, TB, PB
whose index is `min 5 (Nat.log 1024 n)` — i.e. the unit under which the
magnitude first drops below 1024, capped at PB — renders the scaled value
to one decimal place, always ends in a unit suffix, and agrees with the
three quoted examples. -/
theorem format_bytes_spec :
    (∀ n : ℕ, format_bytes (n : ℚ) =
      fmt1 ((n : ℚ) / 1024 ^ min 5 (Nat.log 1024 n)) ++ " " ++
        byteUnitsAll.getD (min 5 (Nat.log 1024 n)) "") ∧
    (∀ n : ℕ, ∃ u ∈ byteUnitsAll, (" " ++ u).toList <:+ (format_bytes (n : ℚ)).toList) ∧
    format_bytes 0 = "0.0 B" ∧ format_bytes 2048 = "2.0 KB" ∧
    format_bytes (3 * 1024 ^ 3) = "3.0 GB" := by
  have h2048 : format_bytes 2048 = "2.0 KB" := by
    rw [format_bytes, go_step _ _ _ (by norm_num)]
    rw [show (2048:ℚ)/1024 = 2 by norm_num]
    rw [go_stop _ _ _ (by norm_num), fmt1_two]
    rfl
  have h3g : format_bytes (3 * 1024 ^ 3) = "3.0 GB" := by
    rw [format_bytes, go_step _ _ _ (by norm_num)]
    rw [show (3 * 1024 ^ 3:ℚ)/1024 = 3 * 1024^2 by norm_num]
    rw [go_step _ _ _ (by norm_num)]
    rw [show (3 * 1024 ^ 2:ℚ)/1024 = 3 * 1024 by norm_num]
    rw [go_step _ _ _ (by norm_num)]
    rw [show (3 * 1024:ℚ)/1024 = 3 by norm_num]
    rw [go_stop _ _ _ (by norm_num), fmt1_three]
    rfl
  have h0 : format_bytes 0 = "0.0 B" := by
    rw [format_bytes, go_stop _ _ _ (by norm_num), fmt1_zero]
    rfl
  refine ⟨format_bytes_unit, fun n => ?_, h0, h2048, h3g⟩
  refine ⟨byteUnitsAll.getD (min 5 (Nat.log 1024 n)) "", ?_, ?_⟩
  · have : min 5 (Nat.log 1024 n) ≤ 5 := min_le_left _ _
    interval_cases h : min 5 (Nat.log 1024 n) <;> simp [byteUnitsAll]
  · rw [format_bytes_unit n, String.append_assoc]
    exact ⟨(fmt1 ((n : ℚ) / 1024 ^ min 5 (Nat.log 1024 n))).toList, by
      simp [String.toList, String.data_append]⟩

theorem roundHalfEven_eq_iff (x : ℚ) (m : ℤ) (hm : 2 ∣ m) :
    roundHalfEven x = m ↔ (m:ℚ) - 1/2 ≤ x ∧ x ≤ (m:ℚ) + 1/2 := by
  unfold roundHalfEven
  have hf : (⌊x⌋:ℚ) + Int.fract x = x := Int.floor_add_fract x
  have hf0 : 0 ≤ Int.fract x := Int.fract_nonneg x
  have hf1 : Int.fract x < 1 := Int.fract_lt_one x
  split_ifs with h1 h2 h3
  · constructor
    · rintro rfl
      constructor <;> linarith
    · rintro ⟨hl, hr⟩
      have hlo : (m:ℚ) < (⌊x⌋:ℚ) + 1 := by linarith
      have hhi : (⌊x⌋:ℚ) < (m:ℚ) + 1 := by linarith
      have h1' : m < ⌊x⌋ + 1 := by exact_mod_cast hlo
      have h2' : ⌊x⌋ < m + 1 := by exact_mod_cast hhi
      omega
  · constructor
    · intro h
      have hmx : (m:ℚ) = (⌊x⌋:ℚ) + 1 := by exact_mod_cast h.symm
      constructor <;> linarith
    · rintro ⟨hl, hr⟩
      have hlo : (m:ℚ) < (⌊x⌋:ℚ) + 2 := by linarith
      have hhi : (⌊x⌋:ℚ) < (m:ℚ) := by linarith
      have h1' : m < ⌊x⌋ + 2 := by exact_mod_cast hlo
      have h2' : ⌊x⌋ < m := by exact_mod_cast hhi
      omega
  · have hfe : Int.fract x = 1/2 := le_antisymm (not_lt.mp h2) (not_lt.mp h1)
    constructor
    · rintro rfl
      constructor <;> linarith
    · rintro ⟨hl, hr⟩
      have hlo : (m:ℚ) - 1 ≤ (⌊x⌋:ℚ) := by linarith
      have hhi : (⌊x⌋:ℚ) ≤ (m:ℚ) := by linarith
      have h1' : m - 1 ≤ ⌊x⌋ := by exact_mod_cast hlo
      have h2' : ⌊x⌋ ≤ m := by exact_mod_cast hhi
      omega
  · have hfe : Int.fract x = 1/2 := le_antisymm (not_lt.mp h2) (not_lt.mp h1)
    constructor
    · intro h
      have hmx : (m:ℚ) = (⌊x⌋:ℚ) + 1 := by exact_mod_cast h.symm
      constructor <;> linarith
    · rintro ⟨hl, hr⟩
      have hlo : (m:ℚ) - 1 ≤ (⌊x⌋:ℚ) := by linarith
      have hhi : (⌊x⌋:ℚ) ≤ (m:ℚ) := by linarith
      have h1' : m - 1 ≤ ⌊x⌋ := by exact_mod_cast hlo
      have h2' : ⌊x⌋ ≤ m := by exact_mod_cast hhi
      omega

theorem round2_eq_100_iff (q : ℚ) :
    round2 q = 100 ↔ 99995/1000 ≤ q ∧ q ≤ 100005/1000 := by
  have key : round2 q = 100 ↔ roundHalfEven (q * 100) = 10000 := by
    unfold round2
    rw [div_eq_iff (by norm_num : (100:ℚ) ≠ 0)]
    norm_num
    exact ⟨fun h => by exact_mod_cast h, fun h => by exact_mod_cast h⟩
  rw [key, roundHalfEven_eq_iff (q*100) 10000 (by norm_num)]
  constructor <;> rintro ⟨a, b⟩ <;> constructor <;> linarith

/-- C2 counterexample: a device whose true completion is 99.999 — strictly
below 100 — is nonetheless counted as fully replicated by the report
pipeline, because the classifier tests the completion after rounding to two
decimals. -/
theorem partial_completion_counted :
    (fullyReplicated (reportDeviceCompletions "ME"
        (fun _ _ => some ⟨some (99999/1000), none, none, none, none, some "valid"⟩)
        (fun _ => some ⟨some true⟩) (fun _ => none)
        ⟨"f", none, none, none, none, some [⟨some "DEV"⟩]⟩)).length = 1 ∧
    (99999/1000 : ℚ) < 100 := by
  have hr : round2 (99999/1000 : ℚ) = 100 := by
    unfold round2 roundHalfEven
    norm_num [Int.fract]
  constructor
  · simp [fullyReplicated, reportDeviceCompletions, remoteDevices, rrEntry, hr]
  · norm_num

/-- C2 (amended): the fully-replicated count equals the number of queried
remote devices whose completion, rounded to two decimals, equals 100 with
`remoteState == "valid"`; a failed query (`none`) is never counted, and
rounded completion equals 100 exactly on true completions in
[99.995, 100.005]. -/
theorem fully_replicated_count_spec :
    (∀ (myID : String) (q : String → String → Option RawCompletion)
        (connOf : String → Option ConnInfo) (nameOf : String → Option String)
        (cfg : FolderCfgRaw),
      (fullyReplicated (reportDeviceCompletions myID q connOf nameOf cfg)).length =
        (remoteDevices cfg myID).countP (fun dev =>
          match q cfg.id (dev.deviceID.getD "") with
          | some comp => round2 (comp.completion.getD 0) == 100 &&
              comp.remoteState.getD "unknown" == "valid"
          | none => false)) ∧
    (∀ x : ℚ, round2 x = 100 ↔ 99995/1000 ≤ x ∧ x ≤ 100005/1000) := by
  refine ⟨fun myID q connOf nameOf cfg => ?_, round2_eq_100_iff⟩
  rw [fullyReplicated, reportDeviceCompletions, ← List.countP_eq_length_filter,
    List.countP_map]
  apply List.countP_congr
  intro dev _
  cases hq : q cfg.id (dev.deviceID.getD "") <;>
    simp [rrEntry, hq]

/-- C5 counterexample: the device formatter's concise output has a field
`"id"` that the verbose output does not have (verbose uses `"deviceID"`),
so the concise field set is not a subset of the verbose field set. -/
theorem device_concise_field_not_in_verbose :
    "id" ∈ keysOf (format_device ⟨"AAAAAAA-BBB", none⟩ none none true) ∧
    "id" ∉ keysOf (format_device ⟨"AAAAAAA-BBB", none⟩ none none false) := by
  decide

/-- C5 (amended): concise field names are a subset of verbose field names
for the folder, folder-status and completion formatters; for the device and
connection formatters the subset relation holds for every concise field
except the renamed identifier field (`"id"` resp. `"device"`), which is
absent from verbose output. -/
theorem concise_fields_subset_verbose :
    (∀ cfg : FolderCfgRaw, (keysOf (format_folder cfg true)).all
        (fun k => (keysOf (format_folder cfg false)).contains k) = true) ∧
    (∀ st : StatusRaw, (keysOf (format_folder_status st true)).all
        (fun k => (keysOf (format_folder_status st false)).contains k) = true) ∧
    (∀ (c : CompRaw) (n : String) (b : Bool), (keysOf (format_completion c n b true)).all
        (fun k => (keysOf (format_completion c n b false)).contains k) = true) ∧
    (∀ (dev : DeviceCfgRaw) (conn : Option ConnRaw) (stat : Option StatRaw),
      ((keysOf (format_device dev conn stat true)).filter (fun k => k != "id")).all
        (fun k => (keysOf (format_device dev conn stat false)).contains k) = true) ∧
    (∀ (did : String) (conn : ConnRaw) (name : String),
      ((keysOf (format_connection did conn name true)).filter (fun k => k != "device")).all
        (fun k => (keysOf (format_connection did conn name false)).contains k) = true) := by
  refine ⟨fun cfg => ?_, fun st => ?_, fun c n b => ?_, fun dev conn stat => ?_,
    fun did conn name => ?_⟩ <;>
    simp [format_folder, format_folder_status, format_completion, format_device,
      format_connection, keysOf]

/-- C6 counterexample: in the replication report, a device whose completion
query fails (entry tagged by `completion = none`) keeps the connected flag
read from the connections table — here `true`, not `false` as claimed. -/
theorem report_failed_device_keeps_connected :
    (rrEntry (fun _ _ => none) (fun _ => some ⟨some true⟩) (fun _ => none)
      "f" "DEV").completion = none ∧
    (rrEntry (fun _ _ => none) (fun _ => some ⟨some true⟩) (fun _ => none)
      "f" "DEV").connected = true :=
  ⟨rfl, rfl⟩

/-- C6 (amended): neither aggregation aborts on a failed device query —
every non-local device contributes exactly one entry regardless of the
query outcome.  In the folder-completion tool the failed entry has
`completion = none`, `connected = false`, and an error tag; in the
replication report the failed entry has `completion = none` and
`remoteState = "unknown"` but keeps the connected flag from the
connections table. -/
theorem per_device_error_isolation :
    (∀ (myID : String) (q : String → String → Option RawCompletion)
        (connOf : String → Option ConnInfo) (nameOf : String → Option String)
        (fid : String) (devs : List FolderDevice),
      (completionEntries myID q connOf nameOf fid devs).length =
        devs.countP (fun d => !(d.deviceID.getD "" == myID))) ∧
    (∀ (q : String → String → Option RawCompletion) (connOf : String → Option ConnInfo)
        (nameOf : String → Option String) (fid did : String), q fid did = none →
      fcEntry q connOf nameOf fid did =
        ⟨did, (nameOf did).getD (did.take 8), false, none, none, none, none, none,
          none, none, none, some "Could not query completion for this device."⟩) ∧
    (∀ (myID : String) (q : String → String → Option RawCompletion)
        (connOf : String → Option ConnInfo) (nameOf : String → Option String)
        (cfg : FolderCfgRaw),
      (reportDeviceCompletions myID q connOf nameOf cfg).length =
        (remoteDevices cfg myID).length) ∧
    (∀ (q : String → String → Option RawCompletion) (connOf : String → Option ConnInfo)
        (nameOf : String → Option String) (fid did : String), q fid did = none →
      rrEntry q connOf nameOf fid did =
        ⟨did, (nameOf did).getD (did.take 8),
          ((connOf did).getD ⟨none⟩).connected.getD false, none, "unknown", none⟩) := by
  refine ⟨fun myID q connOf nameOf fid devs => ?_, fun q connOf nameOf fid did h => ?_,
    fun myID q connOf nameOf cfg => ?_, fun q connOf nameOf fid did h => ?_⟩
  · rw [completionEntries_eq_map, List.length_map, ← List.countP_eq_length_filter]
  · simp [fcEntry, h]
  · rw [reportDeviceCompletions, List.length_map]
  · simp [rrEntry, h]

/-- Witness for C6 at a concrete failed query in both tools. -/
theorem per_device_error_isolation_witness :
    ((fun _ _ : String => (none : Option RawCompletion)) "f" "DEV" = none) ∧
    fcEntry (fun _ _ => none) (fun _ => none) (fun _ => none) "f" "DEV" =
      ⟨"DEV", ((fun _ : String => (none : Option String)) "DEV").getD ("DEV".take 8),
        false, none, none, none, none, none, none, none, none,
        some "Could not query completion for this device."⟩ ∧
    rrEntry (fun _ _ => none) (fun _ => some ⟨some true⟩) (fun _ => none) "f" "DEV" =
      ⟨"DEV", ((fun _ : String => (none : Option String)) "DEV").getD ("DEV".take 8),
        (((fun _ : String => some (ConnInfo.mk (some true))) "DEV").getD
          ⟨none⟩).connected.getD false, none, "unknown", none⟩ :=
  ⟨rfl, per_device_error_isolation.2.1 (fun _ _ => none) (fun _ => none)
      (fun _ => none) "f" "DEV" rfl,
    per_device_error_isolation.2.2.2 (fun _ _ => none)
      (fun _ => some ⟨some true⟩) (fun _ => none) "f" "DEV" rfl⟩

theorem reclaim_eq (e : ReportEntry) :
    reclaimContribution e = if e.safeKey then e.bytesKey else 0 := by
  cases e <;> rfl

theorem sum_reclaim (l : List ReportEntry) :
    (l.map reclaimContribution).sum =
      ((l.filter (fun e => e.safeKey)).map (fun e => e.bytesKey)).sum := by
  induction l with
  | nil => rfl
  | cons e rest ih =>
    rw [List.map_cons, List.sum_cons, ih, reclaim_eq, List.filter_cons]
    cases he : e.safeKey
    · simp
    · simp

/-- C3: the accumulated reclaimable total equals the sum of `localBytes`
over exactly the report entries whose `safeToRemove` flag is true, and a
folder whose status query failed becomes an `err` entry contributing
nothing. -/
theorem total_reclaimable_spec :
    (∀ (myID : String) (q : String → String → Option RawCompletion)
        (connOf : String → Option ConnInfo) (nameOf : String → Option String)
        (statusOf : String → Option StatusRaw) (cfgs : List FolderCfgRaw),
      totalReclaimable myID q connOf nameOf statusOf cfgs =
        (((replicationReportEntries myID q connOf nameOf statusOf cfgs).filter
            (fun e => e.safeKey)).map (fun e => e.bytesKey)).sum) ∧
    (∀ (myID : String) (q : String → String → Option RawCompletion)
        (connOf : String → Option ConnInfo) (nameOf : String → Option String)
        (statusOf : String → Option StatusRaw) (cfg : FolderCfgRaw),
      statusOf cfg.id = none →
        reportFolder myID q connOf nameOf statusOf cfg =
          ReportEntry.err cfg.id (cfg.label.getD cfg.id) ∧
        reclaimContribution (ReportEntry.err cfg.id (cfg.label.getD cfg.id)) = 0) := by
  refine ⟨fun myID q connOf nameOf statusOf cfgs => ?_,
    fun myID q connOf nameOf statusOf cfg h => ⟨?_, rfl⟩⟩
  · rw [totalReclaimable]
    exact sum_reclaim _
  · simp [reportFolder, h]

/-- Witness for C3 at a concrete folder whose status query fails. -/
theorem total_reclaimable_spec_witness :
    ((fun _ : String => (none : Option StatusRaw)) "f" = none) ∧
    (reportFolder "ME" (fun _ _ => none) (fun _ => none) (fun _ => none)
        (fun _ => none) ⟨"f", none, none, none, none, none⟩ =
      ReportEntry.err "f" ((FolderCfgRaw.mk "f" none none none none none).label.getD "f") ∧
      reclaimContribution (ReportEntry.err "f"
        ((FolderCfgRaw.mk "f" none none none none none).label.getD "f")) = 0) :=
  ⟨rfl, total_reclaimable_spec.2 "ME" (fun _ _ => none) (fun _ => none) (fun _ => none)
    (fun _ => none) ⟨"f", none, none, none, none, none⟩ rfl⟩

theorem reportLe_trans (a b c : ReportEntry) (hab : reportLe a b = true)
    (hbc : reportLe b c = true) : reportLe a c = true := by
  simp only [reportLe, decide_eq_true_eq] at hab hbc ⊢
  omega

theorem reportLe_total (a b : ReportEntry) : (reportLe a b || reportLe b a) = true := by
  simp only [reportLe, Bool.or_eq_true, decide_eq_true_eq]
  omega

/-- C4: the sorted report is a permutation of the per-folder entries (so a
failed-status folder still appears), every `safe` entry precedes every
non-`safe` entry, entries with equal safety are in descending `localBytes`
order, and a failed-status (`err`) entry sorts as not safe. -/
theorem report_sorted_safe_first :
    ∀ (myID : String) (q : String → String → Option RawCompletion)
      (connOf : String → Option ConnInfo) (nameOf : String → Option String)
      (statusOf : String → Option StatusRaw) (cfgs : List FolderCfgRaw),
      (sortReport (replicationReportEntries myID q connOf nameOf statusOf cfgs)).Perm
        (replicationReportEntries myID q connOf nameOf statusOf cfgs) ∧
      (sortReport (replicationReportEntries myID q connOf nameOf statusOf cfgs)).Pairwise
        (fun a b => (b.safeKey = true → a.safeKey = true) ∧
          (a.safeKey = b.safeKey → b.bytesKey ≤ a.bytesKey)) ∧
      (∀ f l, (ReportEntry.err f l).safeKey = false) := by
  intro myID q connOf nameOf statusOf cfgs
  refine ⟨List.mergeSort_perm _ _, ?_, fun f l => rfl⟩
  have hs := List.sorted_mergeSort reportLe_trans reportLe_total
    (replicationReportEntries myID q connOf nameOf statusOf cfgs)
  refine hs.imp ?_
  intro a b hab
  simp only [reportLe, decide_eq_true_eq, sortKey] at hab
  cases ha : a.safeKey <;> cases hb : b.safeKey <;>
    simp [ha, hb] at hab ⊢ <;> omega

theorem rfindNl_some_newline (l : List Char) : ∀ i : ℕ, rfindNl l = some i → l[i]? = some '\n' := by
  induction l with
  | nil => intro i h; simp [rfindNl] at h
  | cons c rest ih =>
    intro i h
    rw [rfindNl] at h
    cases hr : rfindNl rest with
    | some k =>
      rw [hr] at h
      obtain rfl : i = k + 1 := (Option.some_inj.mp h).symm
      simpa using ih k hr
    | none =>
      rw [hr] at h
      by_cases hc : c = '\n'
      · rw [if_pos hc] at h
        obtain rfl : i = 0 := (Option.some_inj.mp h).symm
        simpa using hc
      · rw [if_neg hc] at h
        cases h

theorem rfindNl_none (l : List Char) : rfindNl l = none ↔ ∀ j : ℕ, l[j]? ≠ some '\n' := by
  induction l with
  | nil => simp [rfindNl]
  | cons c rest ih =>
    rw [rfindNl]
    cases hr : rfindNl rest with
    | some k =>
      constructor
      · intro h; cases h
      · intro h
        exact absurd (by simpa using rfindNl_some_newline rest k hr :
          (c :: rest)[k+1]? = some '\n') (h (k+1))
    | none =>
      have hnone := ih.mp hr
      by_cases hc : c = '\n'
      · rw [if_pos hc]
        constructor
        · intro h; cases h
        · intro h
          exact absurd (by simpa using hc : (c :: rest)[0]? = some '\n') (h 0)
      · rw [if_neg hc]
        constructor
        · intro _ j
          cases j with
          | zero => simpa using hc
          | succ j' => simpa using hnone j'
        · intro _; rfl

theorem rfindNl_some_iff (l : List Char) :
    ∀ i : ℕ, rfindNl l = some i ↔
      (l[i]? = some '\n' ∧ ∀ j : ℕ, i < j → l[j]? ≠ some '\n') := by
  induction l with
  | nil => intro i; simp [rfindNl]
  | cons c rest ih =>
    intro i
    rw [rfindNl]
    cases hr : rfindNl rest with
    | some k =>
      have hk := (ih k).mp hr
      constructor
      · intro h
        obtain rfl : i = k + 1 := (Option.some_inj.mp h).symm
        refine ⟨by simpa using hk.1, ?_⟩
        intro j hj
        match j, hj with
        | j+1, hj => simpa using hk.2 j (by omega)
      · rintro ⟨h1, h2⟩
        cases i with
        | zero =>
          exact absurd (by simpa using hk.1 : (c :: rest)[k+1]? = some '\n')
            (h2 (k+1) (by omega))
        | succ i' =>
          have h1' : rest[i']? = some '\n' := by simpa using h1
          have h2' : ∀ j : ℕ, i' < j → rest[j]? ≠ some '\n' := by
            intro j hj
            simpa using h2 (j+1) (by omega)
          have hkk := (ih i').mpr ⟨h1', h2'⟩
          rw [hr] at hkk
          obtain rfl : k = i' := Option.some_inj.mp hkk
          rfl
    | none =>
      have hnone := (rfindNl_none rest).mp hr
      by_cases hc : c = '\n'
      · rw [if_pos hc]
        constructor
        · intro h
          obtain rfl : i = 0 := (Option.some_inj.mp h).symm
          refine ⟨by simpa using hc, ?_⟩
          intro j hj
          match j, hj with
          | j+1, _ => simpa using hnone j
        · rintro ⟨h1, h2⟩
          cases i with
          | zero => rfl
          | succ i' =>
            exact absurd (by simpa using h1 : rest[i']? = some '\n') (hnone i')
      · rw [if_neg hc]
        constructor
        · intro h; cases h
        · rintro ⟨h1, h2⟩
          cases i with
          | zero => exact absurd (by simpa using h1) hc
          | succ i' =>
            exact absurd (by simpa using h1 : rest[i']? = some '\n') (hnone i')

/-- C8: a string within the 25000-character budget is returned unchanged;
a longer string is cut to a prefix of at most 25000 characters — at the
nearest preceding newline when one exists past the 80% point of the budget,
at the budget otherwise — with the guidance suffix (original length and
budget, pagination/filter hint) appended. -/
theorem truncate_spec :
    (∀ s : String, s.length ≤ 25000 → truncate s 25000 = s) ∧
    (∀ s : String, 25000 < s.length →
      ∃ k : ℕ, k ≤ 25000 ∧
        truncate s 25000 = String.mk (s.toList.take k) ++ truncSuffix s.length 25000 ∧
        ((s.toList[k]? = some '\n' ∧ 20000 < k ∧ k < 25000 ∧
            ∀ j : ℕ, k < j → j < 25000 → s.toList[j]? ≠ some '\n')
         ∨ (k = 25000 ∧ ∀ j : ℕ, 20000 < j → j < 25000 → s.toList[j]? ≠ some '\n'))) := by
  constructor
  · intro s h
    rw [truncate, if_pos h]
  · intro s h
    rw [truncate, if_neg (by omega)]
    cases hr : rfindNl (s.toList.take 25000) with
    | none =>
      refine ⟨25000, le_refl _, ?_, Or.inr ⟨rfl, ?_⟩⟩
      · simp only [truncCut, hr]
      · intro j h1 h2
        have hx := (rfindNl_none _).mp hr j
        rwa [List.getElem?_take, if_pos h2] at hx
    | some i =>
      have hi := (rfindNl_some_iff _ i).mp hr
      have hilen : i < 25000 := by
        obtain ⟨hl, _⟩ := List.getElem?_eq_some.mp hi.1
        rw [List.length_take] at hl
        omega
      by_cases hc : 4 * 25000 < 5 * i
      · refine ⟨i, by omega, ?_, Or.inl ⟨?_, by omega, hilen, ?_⟩⟩
        · simp only [truncCut, hr, if_pos hc]
          rw [List.take_take, Nat.min_eq_left (le_of_lt hilen)]
        · have hx := hi.1
          rwa [List.getElem?_take, if_pos hilen] at hx
        · intro j hj1 hj2
          have hx := hi.2 j hj1
          rwa [List.getElem?_take, if_pos hj2] at hx
      · refine ⟨25000, le_refl _, ?_, Or.inr ⟨rfl, ?_⟩⟩
        · simp only [truncCut, hr, if_neg hc]
        · intro j h1 h2
          have hx := hi.2 j (by omega)
          rwa [List.getElem?_take, if_pos h2] at hx

/-- Witness for C8: a short string is unchanged; a 25001-character string
is cut per the characterization. -/
theorem truncate_spec_witness :
    (("ab" : String).length ≤ 25000 ∧ truncate "ab" 25000 = "ab") ∧
    (25000 < (String.mk (List.replicate 25001 'a')).length ∧
      ∃ k : ℕ, k ≤ 25000 ∧
        truncate (String.mk (List.replicate 25001 'a')) 25000 =
          String.mk ((String.mk (List.replicate 25001 'a')).toList.take k) ++
            truncSuffix (String.mk (List.replicate 25001 'a')).length 25000 ∧
        (((String.mk (List.replicate 25001 'a')).toList[k]? = some '\n' ∧ 20000 < k ∧
            k < 25000 ∧ ∀ j : ℕ, k < j → j < 25000 →
              (String.mk (List.replicate 25001 'a')).toList[j]? ≠ some '\n')
         ∨ (k = 25000 ∧ ∀ j : ℕ, 20000 < j → j < 25000 →
              (String.mk (List.replicate 25001 'a')).toList[j]? ≠ some '\n'))) := by
  have h1 : ("ab" : String).length ≤ 25000 := by decide
  have h2 : 25000 < (String.mk (List.replicate 25001 'a')).length := by
    rw [show (String.mk (List.replicate 25001 'a')).length =
      (List.replicate 25001 'a').length from rfl, List.length_replicate]
    omega
  exact ⟨⟨h1, truncate_spec.1 "ab" h1⟩, ⟨h2, truncate_spec.2 _ h2⟩⟩

/-- `sub` occurs as a contiguous substring of `s`. -/
def occursIn (sub s : String) : Prop :=
  ∃ l r : List Char, s.toList = l ++ sub.toList ++ r

theorem occursIn_append_left (sub a b : String) (h : occursIn sub b) :
    occursIn sub (a ++ b) := by
  obtain ⟨l, r, hb⟩ := h
  refine ⟨a.toList ++ l, r, ?_⟩
  simp only [String.toList, String.data_append] at hb ⊢
  simp [hb]

theorem occursIn_append_right (sub a b : String) (h : occursIn sub a) :
    occursIn sub (a ++ b) := by
  obtain ⟨l, r, ha⟩ := h
  refine ⟨l, r ++ b.toList, ?_⟩
  simp only [String.toList, String.data_append] at ha ⊢
  simp [ha]

theorem occursIn_go (m : String) : ∀ names : List String, m ∈ names →
    occursIn ("'" ++ m ++ "'") (pyListReprGo names) := by
  intro names
  induction names with
  | nil => intro h; cases h
  | cons n rest ih =>
    intro hm
    cases rest with
    | nil =>
      have : m = n := by simpa using hm
      subst this
      exact ⟨[], [], by simp [pyListReprGo]⟩
    | cons n2 rest2 =>
      rcases List.mem_cons.mp hm with rfl | hm2
      · exact ⟨[], (", " ++ pyListReprGo (n2 :: rest2)).toList, by
          simp [pyListReprGo, String.toList, String.data_append]⟩
      · obtain ⟨l, r, hb⟩ := ih hm2
        refine ⟨("'" ++ n ++ "'" ++ ", ").toList ++ l, r, ?_⟩
        simp only [String.toList, String.data_append] at hb ⊢
        simp [pyListReprGo, String.data_append, hb]

theorem occursIn_pyListRepr (m : String) (names : List String) (h : m ∈ names) :
    occursIn ("'" ++ m ++ "'") (pyListRepr names) := by
  rw [pyListRepr]
  exact occursIn_append_right _ _ _ (occursIn_append_left _ _ _ (occursIn_go m names h))

/-- C9: instance resolution — a supplied name resolves to the instance
found under it, an unknown name fails with the not-found message listing
every configured name, an omitted name resolves to the sole instance when
exactly one is configured, and otherwise fails with the ambiguity message
listing every configured name. -/
theorem get_instance_spec :
    (∀ (reg : Registry) (n : String) (p : String × Client),
      List.find? (fun q => q.1 = n) reg = some p →
        get_instance reg (some n) = .ok p.2) ∧
    (∀ (reg : Registry) (n : String),
      List.find? (fun q => q.1 = n) reg = none →
        get_instance reg (some n) = .error (notFoundMsg n (reg.map Prod.fst)) ∧
        ∀ m ∈ reg.map Prod.fst,
          occursIn ("'" ++ m ++ "'") (notFoundMsg n (reg.map Prod.fst))) ∧
    (∀ p : String × Client, get_instance [p] none = .ok p.2) ∧
    (∀ reg : Registry, reg.length ≠ 1 →
      get_instance reg none = .error (ambiguousMsg (reg.map Prod.fst)) ∧
      ∀ m ∈ reg.map Prod.fst,
        occursIn ("'" ++ m ++ "'") (ambiguousMsg (reg.map Prod.fst))) := by
  refine ⟨fun reg n p h => ?_, fun reg n h => ⟨?_, fun m hm => ?_⟩, fun p => rfl,
    fun reg h => ⟨?_, fun m hm => ?_⟩⟩
  · simp [get_instance, h]
  · simp [get_instance, h]
  · exact occursIn_append_left _ _ _ (occursIn_pyListRepr m _ hm)
  · match reg with
    | [] => rfl
    | [p] => exact absurd rfl h
    | p :: q :: rest => rfl
  · rw [ambiguousMsg]
    exact occursIn_append_right _ _ _
      (occursIn_append_left _ _ _ (occursIn_pyListRepr m _ hm))

/-- Witness for C9: a one-instance registry resolves by name, and a
two-instance registry with no name fails with the ambiguity message. -/
theorem get_instance_spec_witness :
    (List.find? (fun q => q.1 = "a") [("a", Client.mk "a" "u" "k")] =
        some ("a", Client.mk "a" "u" "k") ∧
      get_instance [("a", Client.mk "a" "u" "k")] (some "a") =
        .ok (("a", Client.mk "a" "u" "k")).2) ∧
    (([("a", Client.mk "a" "u" "k"), ("b", Client.mk "b" "u" "k")] : Registry).length ≠ 1 ∧
      get_instance [("a", Client.mk "a" "u" "k"), ("b", Client.mk "b" "u" "k")] none =
        .error (ambiguousMsg (([("a", Client.mk "a" "u" "k"),
            ("b", Client.mk "b" "u" "k")] : Registry).map Prod.fst)) ∧
      ∀ m ∈ (([("a", Client.mk "a" "u" "k"), ("b", Client.mk "b" "u" "k")] : Registry).map
          Prod.fst),
        occursIn ("'" ++ m ++ "'") (ambiguousMsg (([("a", Client.mk "a" "u" "k"),
          ("b", Client.mk "b" "u" "k")] : Registry).map Prod.fst))) :=
  ⟨⟨rfl, get_instance_spec.1 _ "a" _ rfl⟩,
    ⟨by decide, get_instance_spec.2.2.2 _ (by decide)⟩⟩

end SyncthingMCP
